import Mathlib

/-!
Shallow embedding of the core logic of the rice-disease web application:
the simulated image classifier (`src/lib/tensorflow.ts`), the network-status
state machine and capability table (`src/hooks/useNetworkStatus.ts`), the
local-first persistence of the disease editor (`src/app/update-diseases/page.tsx`),
the report-submission handler (`src/app/report-disease/page.tsx`) and the
recent-translations update (`src/app/translate/page.tsx`).

JavaScript strings are modelled by Lean `String` with list-based primitive
operations (prefix test, substring test, trim, split, lowercase) so that all
definitions evaluate by kernel reduction.  JavaScript numbers are modelled by
`ℚ`; `Math.floor` is `Int.floor`, `Math.round x` is `⌊x + 1/2⌋`.
`Math.random()` draws are explicit `ℚ` parameters constrained to `[0, 1)`.
`JSON.stringify` is injective on the data shapes involved, so a localStorage
value is modelled by the (optional) parsed value itself.
-/

/-- Prefix test on character lists: `needle` is a prefix of `hay`.
Models the comparison underlying `String.prototype.startsWith`. -/
def listIsPrefix : List Char → List Char → Bool
  | [], _ => true
  | _ :: _, [] => false
  | a :: as, b :: bs => a == b && listIsPrefix as bs

/-- Substring test on character lists: `needle` occurs inside `hay`.
Models the search underlying `String.prototype.includes`. -/
def listHasSub (needle : List Char) : List Char → Bool
  | [] => needle.isEmpty
  | c :: rest => listIsPrefix needle (c :: rest) || listHasSub needle rest

/-- Models `s.startsWith(p)` from JavaScript. -/
def strStartsWith (s p : String) : Bool := listIsPrefix p.data s.data

/-- Models `s.includes(sub)` from JavaScript. -/
def strIncludes (s sub : String) : Bool := listHasSub sub.data s.data

/-- Models `s.toLowerCase()` from JavaScript (ASCII case mapping). -/
def toLowerString (s : String) : String := ⟨s.data.map Char.toLower⟩

/-- Drop leading and trailing whitespace from a character list. -/
def trimList (l : List Char) : List Char :=
  ((l.dropWhile Char.isWhitespace).reverse.dropWhile Char.isWhitespace).reverse

/-- Models `s.trim()` from JavaScript. -/
def jsTrim (s : String) : String := ⟨trimList s.data⟩

/-- Split a character list at every occurrence of the character `c`,
keeping empty segments, as JavaScript `s.split(c)` does for a
single-character separator. -/
def splitOnChar (c : Char) : List Char → List (List Char)
  | [] => [[]]
  | a :: as =>
    let rest := splitOnChar c as
    if a == c then [] :: rest
    else
      match rest with
      | r :: rs => (a :: r) :: rs
      | [] => [[a]]

/-- Models `s.split(sep)` for a single-character separator. -/
def strSplitOn (s : String) (c : Char) : List String :=
  (splitOnChar c s.data).map (fun l => (⟨l⟩ : String))

/-- Models `Math.round` on a nonnegative rational. -/
def jsRound (q : ℚ) : ℤ := ⌊q + 1/2⌋

/-- Rounding to two decimal places: `Math.round(q * 100) / 100`. -/
def round2 (q : ℚ) : ℚ := ((jsRound (q * 100) : ℤ) : ℚ) / 100

/-- Browser `File` object as far as the code inspects it: `name`, `type`
(MIME type) and `size` in bytes. -/
structure JsFile where
  name : String
  type : String
  size : ℕ
deriving DecidableEq, Repr

/-- Severity levels of the TypeScript union `'Low' | 'Medium' | 'High'`. -/
inductive Severity where
  | Low
  | Medium
  | High
deriving DecidableEq, Repr

/-- Entry of the fixed `diseases` table inside `analyzeImage`
(`src/lib/tensorflow.ts` lines 38-69). -/
structure DiseaseEntry where
  diseaseId : String
  diseaseName : String
  baseConfidence : ℚ
  severity : Severity
deriving DecidableEq, Repr

/-- The fixed five-entry `diseases` table of `analyzeImage`. -/
def diseasesList : List DiseaseEntry :=
  [⟨"d1", "Rice Blast", 17/20, Severity.High⟩,
   ⟨"d2", "Bacterial Leaf Blight", 39/50, Severity.Medium⟩,
   ⟨"d3", "Brown Spot", 18/25, Severity.Medium⟩,
   ⟨"d4", "Sheath Blight", 17/25, Severity.High⟩,
   ⟨"d5", "Tungro Virus", 13/20, Severity.High⟩]

/-- Interface `DiseaseDetectionResult` of `src/lib/tensorflow.ts`. -/
structure DiseaseDetectionResult where
  diseaseId : String
  diseaseName : String
  confidence : ℚ
  description : String
  severity : Severity
deriving DecidableEq, Repr

/-- Interface `ImageAnalysisResult` of `src/lib/tensorflow.ts`; the optional
`error` field is `Option String`. -/
structure ImageAnalysisResult where
  success : Bool
  results : List DiseaseDetectionResult
  error : Option String
  processingTime : ℕ
deriving DecidableEq, Repr

/-- The `Math.random()` draws consumed by one run of `analyzeImage`:
`select` picks the fallback disease index, `conf` jitters the primary
confidence, `secondary` decides whether a second detection is appended
(`> 0.7`), `secConf` lowers the secondary confidence. -/
structure RandomDraws where
  select : ℚ
  conf : ℚ
  secondary : ℚ
  secConf : ℚ
deriving DecidableEq, Repr

/-- Every draw of `Math.random()` lies in `[0, 1)`. -/
def RandomDraws.Valid (r : RandomDraws) : Prop :=
  0 ≤ r.select ∧ r.select < 1 ∧ 0 ≤ r.conf ∧ r.conf < 1 ∧
    0 ≤ r.secondary ∧ r.secondary < 1 ∧ 0 ≤ r.secConf ∧ r.secConf < 1

/-- Validation at the top of `analyzeImage` (lines 24-31): a thrown error is
modelled as `some message`. -/
def analyzeValidationError (f : JsFile) : Option String :=
  if ¬ strStartsWith f.type "image/" = true then
    some "Invalid file type. Please upload an image file."
  else if f.size > 10 * 1024 * 1024 then
    some "Image file too large. Please use an image smaller than 10MB."
  else
    none

/-- Disease selection of `analyzeImage` (lines 71-88): filename substring
heuristics on the lowercased name, with a uniform random fallback
`diseases[Math.floor(Math.random() * diseases.length)]`. -/
def detectDisease (fileName : String) (rSelect : ℚ) : DiseaseEntry :=
  let fn := toLowerString fileName
  if strIncludes fn "blast" = true then diseasesList.getD 0 ⟨"d1", "Rice Blast", 17/20, Severity.High⟩
  else if strIncludes fn "blight" = true then diseasesList.getD 1 ⟨"d1", "Rice Blast", 17/20, Severity.High⟩
  else if strIncludes fn "spot" = true then diseasesList.getD 2 ⟨"d1", "Rice Blast", 17/20, Severity.High⟩
  else if strIncludes fn "sheath" = true then diseasesList.getD 3 ⟨"d1", "Rice Blast", 17/20, Severity.High⟩
  else if strIncludes fn "tungro" = true then diseasesList.getD 4 ⟨"d1", "Rice Blast", 17/20, Severity.High⟩
  else diseasesList.getD (Int.toNat ⌊rSelect * (diseasesList.length : ℚ)⌋) ⟨"d1", "Rice Blast", 17/20, Severity.High⟩

/-- Primary confidence (lines 91-93):
`Math.max(0.5, Math.min(0.95, base + (Math.random() - 0.5) * 0.2))`. -/
def primaryConfidence (base rConf : ℚ) : ℚ :=
  max (1/2) (min (19/20) (base + (rConf - 1/2) * (1/5)))

/-- Secondary confidence (line 109):
`Math.max(0.3, confidence - 0.2 - Math.random() * 0.2)`. -/
def secondaryConfidence (confidence rSecConf : ℚ) : ℚ :=
  max (3/10) (confidence - 1/5 - rSecConf * (1/5))

/-- The primary detection record pushed first (lines 95-103). -/
def mkPrimaryResult (det : DiseaseEntry) (c : ℚ) : DiseaseDetectionResult :=
  ⟨det.diseaseId, det.diseaseName, round2 c,
    "Detected " ++ det.diseaseName ++ " with " ++ toString (jsRound (c * 100)) ++ "% confidence",
    det.severity⟩

/-- The optional secondary detection record (lines 110-116). -/
def mkSecondaryResult (sec : DiseaseEntry) (sc : ℚ) : DiseaseDetectionResult :=
  ⟨sec.diseaseId, sec.diseaseName, round2 sc,
    "Possible " ++ sec.diseaseName ++ " with " ++ toString (jsRound (sc * 100)) ++ "% confidence",
    sec.severity⟩

/-- The unsorted results list built by `analyzeImage` (lines 95-118). -/
def analysisResults (fileName : String) (rnd : RandomDraws) : List DiseaseDetectionResult :=
  let det := detectDisease fileName rnd.select
  let c := primaryConfidence det.baseConfidence rnd.conf
  let base := [mkPrimaryResult det c]
  if rnd.secondary > 7/10 then
    match diseasesList.find? (fun d => decide (d.diseaseId ≠ det.diseaseId)) with
    | some sec => base ++ [mkSecondaryResult sec (secondaryConfidence c rnd.secConf)]
    | none => base
  else
    base

/-- Descending comparison used by `results.sort((a, b) => b.confidence - a.confidence)`. -/
def confGE (a b : DiseaseDetectionResult) : Prop := b.confidence ≤ a.confidence

instance : DecidableRel confGE := fun a b => inferInstanceAs (Decidable (b.confidence ≤ a.confidence))

/-- Models `results.sort((a, b) => b.confidence - a.confidence)`: a stable
sort into descending confidence order. -/
def sortByConfDesc (l : List DiseaseDetectionResult) : List DiseaseDetectionResult :=
  l.insertionSort confGE

/-- The function `analyzeImage` of `src/lib/tensorflow.ts` (lines 20-137).
The artificial delay is dropped; the wall-clock `processingTime` is an
explicit parameter; the `Math.random()` draws are the `rnd` parameter.
The try/catch turns a validation throw into the failure record. -/
def analyzeImage (imageFile : JsFile) (rnd : RandomDraws) (processingTime : ℕ) :
    ImageAnalysisResult :=
  match analyzeValidationError imageFile with
  | some msg => ⟨false, [], some msg, processingTime⟩
  | none => ⟨true, sortByConfDesc (analysisResults imageFile.name rnd), none, processingTime⟩

/-- The function `getSupportedFormats` of `src/lib/tensorflow.ts` (lines 161-163). -/
def getSupportedFormats : List String :=
  ["image/jpeg", "image/jpg", "image/png", "image/webp"]

/-- Return shape of `validateImage`. -/
structure ValidationOutcome where
  valid : Bool
  error : Option String
deriving DecidableEq, Repr

/-- The function `validateImage` of `src/lib/tensorflow.ts` (lines 166-184):
membership in the supported-format whitelist, then the 10MB size bound. -/
def validateImage (file : JsFile) : ValidationOutcome :=
  if ¬ file.type ∈ getSupportedFormats then
    ⟨false, some ("Unsupported format. Please use: " ++ String.intercalate ", " getSupportedFormats)⟩
  else if file.size > 10 * 1024 * 1024 then
    ⟨false, some "File too large. Maximum size is 10MB."⟩
  else
    ⟨true, none⟩

/-- Interface `NetworkStatus` of `src/hooks/useNetworkStatus.ts`. -/
structure NetworkStatus where
  isOnline : Bool
  isOffline : Bool
  wasOffline : Bool
deriving DecidableEq, Repr

/-- The React state held by `useNetworkStatus`: the two `useState` cells. -/
structure NetworkState where
  isOnline : Bool
  wasOffline : Bool
deriving DecidableEq, Repr

/-- Browser connectivity events dispatched to the hook's listeners.  The
`online` event carries the value `navigator.onLine` has when the handler
reads it (the handler re-reads it to decide whether to set `wasOffline`). -/
inductive ConnEvent where
  | online (navOnLine : Bool)
  | offline
deriving DecidableEq, Repr

/-- The event handlers `handleOnline`/`handleOffline` of `useNetworkStatus`
(`src/hooks/useNetworkStatus.ts` lines 19-30) as a step function on the
hook state. -/
def networkStep (s : NetworkState) : ConnEvent → NetworkState
  | ConnEvent.online nav =>
    { isOnline := true, wasOffline := if ¬ nav = true then true else s.wasOffline }
  | ConnEvent.offline =>
    { isOnline := false, wasOffline := true }

/-- The value returned by `useNetworkStatus` (lines 43-47). -/
def networkStatusView (s : NetworkState) : NetworkStatus :=
  ⟨s.isOnline, !s.isOnline, s.wasOffline⟩

/-- Return shape of `useOfflineCapabilities`. -/
structure OfflineCapabilities where
  canScanImages : Bool
  canTranslate : Bool
  canViewDiseases : Bool
  canViewVendors : Bool
  canReportDiseases : Bool
  canUpdateDatabase : Bool
  canAccessMaps : Bool
  canMakePhoneCalls : Bool
  canSendEmails : Bool
deriving DecidableEq, Repr

/-- The hook `useOfflineCapabilities` of `src/hooks/useNetworkStatus.ts`
(lines 51-65), as a pure function of the current `isOnline` value. -/
def useOfflineCapabilities (isOnline : Bool) : OfflineCapabilities :=
  { canScanImages := true
    canTranslate := true
    canViewDiseases := true
    canViewVendors := true
    canReportDiseases := isOnline
    canUpdateDatabase := isOnline
    canAccessMaps := isOnline
    canMakePhoneCalls := true
    canSendEmails := isOnline }

/-- Interface `Disease` of `src/app/update-diseases/page.tsx`. -/
structure Disease where
  id : String
  name : String
  description : String
  symptoms : List String
  solutions : List String
  prevention : List String
  severity : Severity
  commonAreas : List String
deriving DecidableEq, Repr

/-- Interface `DiseaseFormData` of `src/app/update-diseases/page.tsx`. -/
structure DiseaseFormData where
  name : String
  description : String
  symptoms : String
  solutions : String
  prevention : String
  severity : Severity
  commonAreas : String
deriving DecidableEq, Repr

/-- Entry of the recent-translations list of `src/app/translate/page.tsx`. -/
structure TranslationEntry where
  english : String
  filipino : String
deriving DecidableEq, Repr

/-- Browser local storage as far as the code touches it: the two keys
`localDiseases` and `recentTranslations`, each `none` when unset, otherwise
holding the value whose `JSON.stringify` image is stored. -/
structure LocalStorage where
  localDiseases : Option (List Disease)
  recentTranslations : Option (List TranslationEntry)
deriving DecidableEq, Repr

/-- Console-log events emitted by the handlers in place of real transport. -/
inductive LogEvent where
  | syncDisease (d : Disease)
  | deleteDisease (id : String)
  | reportSubmitted
deriving DecidableEq, Repr

/-- Models `s.split(sep-char)` keeping entries whose trim is nonempty, as in
`formData.symptoms.split(newline).filter(s => s.trim())` (original strings
are kept, only filtered). -/
def splitLinesNonEmpty (s : String) : List String :=
  (strSplitOn s (Char.ofNat 10)).filter (fun x => decide (jsTrim x ≠ ""))

/-- Models `s.split(comma).map(a => a.trim()).filter(a => a)`. -/
def splitAreas (s : String) : List String :=
  ((strSplitOn s (Char.ofNat 44)).map jsTrim).filter (fun a => decide (a ≠ ""))

/-- The `newDisease` record built inside `handleSubmit` of
`src/app/update-diseases/page.tsx` (lines 86-95); `now` stands for
`Date.now()` in the fresh id. -/
def buildDisease (formData : DiseaseFormData) (editingId : Option String) (now : ℕ) : Disease :=
  { id := editingId.getD ("d" ++ toString now)
    name := jsTrim formData.name
    description := jsTrim formData.description
    symptoms := splitLinesNonEmpty formData.symptoms
    solutions := splitLinesNonEmpty formData.solutions
    prevention := splitLinesNonEmpty formData.prevention
    severity := formData.severity
    commonAreas := splitAreas formData.commonAreas }

/-- Outcome of one mutating action on the disease editor page: the new
`diseases` state, the local storage afterwards, and the console log. -/
structure UpdateActionResult where
  diseases : List Disease
  storage : LocalStorage
  log : List LogEvent
deriving DecidableEq, Repr

/-- The handler `handleSubmit` of `src/app/update-diseases/page.tsx`
(lines 78-127).  Returns `none` when the required-fields alert fires and
nothing happens.  Note the offline branch (line 125) serializes the
closure variable `diseases` — the collection as it was BEFORE the
`setDiseases` update — not the new state. -/
def updateHandleSubmit (diseases : List Disease) (formData : DiseaseFormData)
    (editingId : Option String) (now : ℕ) (isOnline : Bool) (storage : LocalStorage) :
    Option UpdateActionResult :=
  if jsTrim formData.name = "" ∨ jsTrim formData.description = "" then
    none
  else
    let newDisease := buildDisease formData editingId now
    let newState :=
      match editingId with
      | some eid => diseases.map (fun d => if d.id = eid then newDisease else d)
      | none => diseases ++ [newDisease]
    if isOnline then
      some ⟨newState, storage, [LogEvent.syncDisease newDisease]⟩
    else
      some ⟨newState, { storage with localDiseases := some diseases }, []⟩

/-- The handler `handleDelete` of `src/app/update-diseases/page.tsx`
(lines 144-154); `confirmed` is the result of the `confirm` dialog. -/
def handleDelete (diseases : List Disease) (id : String) (confirmed : Bool)
    (isOnline : Bool) (storage : LocalStorage) : UpdateActionResult :=
  if confirmed then
    let newState := diseases.filter (fun d => decide (d.id ≠ id))
    if isOnline then
      ⟨newState, storage, [LogEvent.deleteDisease id]⟩
    else
      ⟨newState, { storage with localDiseases := some (diseases.filter (fun d => decide (d.id ≠ id))) }, []⟩
  else
    ⟨diseases, storage, []⟩

/-- The fields of `ReportFormData` checked by `validateForm` in
`src/app/report-disease/page.tsx`. -/
structure ReportFormData where
  farmerName : String
  contactNumber : String
  farmLocation : String
  region : String
  diseaseName : String
  description : String
  symptoms : String
  consentToContact : Bool
deriving DecidableEq, Repr

/-- The function `validateForm` of `src/app/report-disease/page.tsx`
(lines 123-134). -/
def validateForm (f : ReportFormData) : Option String :=
  if jsTrim f.farmerName = "" then some "Farmer name is required"
  else if jsTrim f.contactNumber = "" then some "Contact number is required"
  else if jsTrim f.farmLocation = "" then some "Farm location is required"
  else if f.region = "" then some "Region is required"
  else if jsTrim f.diseaseName = "" then some "Disease name is required"
  else if jsTrim f.description = "" then some "Disease description is required"
  else if jsTrim f.symptoms = "" then some "Symptoms are required"
  else if ¬ f.consentToContact = true then some "Consent to contact is required"
  else none

/-- Outcome of the report page's `handleSubmit`: local storage afterwards,
console log, whether the report was submitted, and the alert text if one
fired. -/
structure ReportOutcome where
  storage : LocalStorage
  log : List LogEvent
  submitted : Bool
  alerted : Option String
deriving DecidableEq, Repr

/-- The handler `handleSubmit` of `src/app/report-disease/page.tsx`
(lines 136-176): validation alert first, then an offline guard that alerts
and aborts, then the simulated submission which only logs.  Local storage
is never touched on this page. -/
def reportHandleSubmit (formData : ReportFormData) (isOnline : Bool)
    (storage : LocalStorage) : ReportOutcome :=
  match validateForm formData with
  | some msg => ⟨storage, [], false, some msg⟩
  | none =>
    if ¬ isOnline = true then
      ⟨storage, [], false, some "Internet connection required to submit reports"⟩
    else
      ⟨storage, [LogEvent.reportSubmitted], true, none⟩

/-- The persistence part of `translateText` in `src/app/translate/page.tsx`
(lines 51-93): after the translated `result` string is computed from the
dictionary (a word-by-word lookup that does not touch the recent list and is
abstracted as the `result` argument), the new entry is prepended to the
first four previous entries and the updated list is both set as state and
serialized under the key `recentTranslations`.  Returns `none` on the empty
-input early return (line 52). -/
def translateText (inputText result : String) (recent : List TranslationEntry)
    (storage : LocalStorage) : Option (List TranslationEntry × LocalStorage) :=
  if jsTrim inputText = "" then
    none
  else
    let updated := TranslationEntry.mk inputText result :: recent.take 4
    some (updated, { storage with recentTranslations := some updated })

instance : IsTotal DiseaseDetectionResult confGE :=
  ⟨fun a b => le_total b.confidence a.confidence⟩

instance : IsTrans DiseaseDetectionResult confGE :=
  ⟨fun _ _ _ hab hbc => le_trans hbc hab⟩

/-- The (id, name, severity) triples of the fixed five-entry table, the
vocabulary every detection entry is drawn from. -/
def diseaseTable : List (String × String × Severity) :=
  [("d1", "Rice Blast", Severity.High),
   ("d2", "Bacterial Leaf Blight", Severity.Medium),
   ("d3", "Brown Spot", Severity.Medium),
   ("d4", "Sheath Blight", Severity.High),
   ("d5", "Tungro Virus", Severity.High)]

/-- Concrete image file used to exercise the classifier. -/
def blastFile : JsFile := ⟨"blast.png", "image/png", 1000⟩

/-- Concrete GIF file: an image MIME type outside the whitelist of
`getSupportedFormats`. -/
def gifFile : JsFile := ⟨"leaf.gif", "image/gif", 1000⟩

/-- Concrete draws with no secondary detection. -/
def drawsA : RandomDraws := ⟨0, 0, 0, 0⟩

/-- Concrete draws that trigger the secondary detection. -/
def drawsB : RandomDraws := ⟨0, 0, 4/5, 0⟩

/-- Concrete disease-editor form input. -/
def sampleForm : DiseaseFormData :=
  ⟨"Rice Blast", "A fungal disease", "", "", "", Severity.High, ""⟩

/-- The record `handleSubmit` builds from `sampleForm` in add mode at time 0. -/
def sampleDisease : Disease := buildDisease sampleForm none 0

/-- Local storage with both keys unset. -/
def emptyStorage : LocalStorage := ⟨none, none⟩

/-- Concrete report form passing `validateForm`. -/
def sampleReport : ReportFormData :=
  ⟨"Juan", "0917", "Nueva Ecija farm", "Luzon", "Rice Blast", "Lesions on leaves", "Gray spots", true⟩

/-- Getting from a list with a default yields the default or a member. -/
theorem listGetD_eq_or_mem {α : Type} (l : List α) (n : ℕ) (d : α) :
    l.getD n d = d ∨ l.getD n d ∈ l := by
  induction l generalizing n with
  | nil => left; cases n <;> rfl
  | cons a t ih =>
    cases n with
    | zero => right; simp [List.getD_cons_zero]
    | succ n =>
      rw [List.getD_cons_succ]
      rcases ih n with h | h
      · left; exact h
      · right; exact List.mem_cons_of_mem a h

/-- Indexing the fixed disease table (with its first entry as default) always
yields an entry of the table. -/
theorem diseasesList_getD_mem (n : ℕ) :
    diseasesList.getD n ⟨"d1", "Rice Blast", 17/20, Severity.High⟩ ∈ diseasesList := by
  rcases listGetD_eq_or_mem diseasesList n ⟨"d1", "Rice Blast", 17/20, Severity.High⟩ with h | h
  · rw [h]; simp [diseasesList]
  · exact h

/-- Whatever the filename and the draw, the selected disease is one of the
five fixed entries. -/
theorem detectDisease_mem (fn : String) (r : ℚ) : detectDisease fn r ∈ diseasesList := by
  simp only [detectDisease]
  split_ifs <;> exact diseasesList_getD_mem _

/-- The identifying triple of every table entry is in `diseaseTable`. -/
theorem mem_diseaseTable_of_mem (d : DiseaseEntry) (hd : d ∈ diseasesList) :
    (d.diseaseId, d.diseaseName, d.severity) ∈ diseaseTable := by
  fin_cases hd <;> decide

/-- A severity is one of the three levels. -/
theorem severity_cases (sv : Severity) :
    sv = Severity.Low ∨ sv = Severity.Medium ∨ sv = Severity.High := by
  cases sv <;> simp

/-- The `find?` over the table for an id different from a table entry's id
always succeeds, with an entry of the table carrying a different id. -/
theorem find_secondary (det : DiseaseEntry) (hdet : det ∈ diseasesList) :
    ∃ sec, diseasesList.find? (fun d => decide (d.diseaseId ≠ det.diseaseId)) = some sec ∧
      sec ∈ diseasesList ∧ sec.diseaseId ≠ det.diseaseId := by
  fin_cases hdet
  · exact ⟨⟨"d2", "Bacterial Leaf Blight", 39/50, Severity.Medium⟩, rfl,
      by simp [diseasesList], by decide⟩
  · exact ⟨⟨"d1", "Rice Blast", 17/20, Severity.High⟩, rfl, by simp [diseasesList], by decide⟩
  · exact ⟨⟨"d1", "Rice Blast", 17/20, Severity.High⟩, rfl, by simp [diseasesList], by decide⟩
  · exact ⟨⟨"d1", "Rice Blast", 17/20, Severity.High⟩, rfl, by simp [diseasesList], by decide⟩
  · exact ⟨⟨"d1", "Rice Blast", 17/20, Severity.High⟩, rfl, by simp [diseasesList], by decide⟩

/-- The clamped primary confidence always lies in `[1/2, 19/20]`. -/
theorem primaryConfidence_bounds (base rConf : ℚ) :
    1/2 ≤ primaryConfidence base rConf ∧ primaryConfidence base rConf ≤ 19/20 :=
  ⟨le_max_left _ _, max_le (by norm_num) (min_le_left _ _)⟩

/-- With a nonnegative draw and a primary confidence at least `1/2`, the
secondary confidence is at least `1/5` below the primary. -/
theorem secondaryConfidence_le (c rs : ℚ) (hc : 1/2 ≤ c) (hr : 0 ≤ rs) :
    secondaryConfidence c rs ≤ c - 1/5 := by
  have h5 : 0 ≤ rs * (1/5) := mul_nonneg hr (by norm_num)
  exact max_le (by linarith) (by linarith)

/-- Two-decimal rounding is monotone. -/
theorem round2_le_round2 (a b : ℚ) (h : a ≤ b) : round2 a ≤ round2 b := by
  unfold round2 jsRound
  have hf : ⌊a * 100 + 1/2⌋ ≤ ⌊b * 100 + 1/2⌋ := Int.floor_le_floor (by linarith)
  have hq : ((⌊a * 100 + 1/2⌋ : ℤ) : ℚ) ≤ ((⌊b * 100 + 1/2⌋ : ℤ) : ℚ) := by exact_mod_cast hf
  linarith

/-- Two-decimal rounding commutes with subtracting `1/5`. -/
theorem round2_sub_fifth (c : ℚ) : round2 (c - 1/5) = round2 c - 1/5 := by
  unfold round2 jsRound
  have h : (c - 1/5) * 100 + 1/2 = c * 100 + 1/2 + ((-20 : ℤ) : ℚ) := by push_cast; ring
  rw [h, Int.floor_add_int]
  push_cast
  ring

/-- Two-decimal rounding keeps values inside `[1/2, 19/20]`. -/
theorem round2_bounds (c : ℚ) (h1 : 1/2 ≤ c) (h2 : c ≤ 19/20) :
    1/2 ≤ round2 c ∧ round2 c ≤ 19/20 := by
  unfold round2 jsRound
  constructor
  · have h50 : (50 : ℤ) ≤ ⌊c * 100 + 1/2⌋ := Int.le_floor.mpr (by push_cast; linarith)
    have hq : ((50 : ℤ) : ℚ) ≤ ((⌊c * 100 + 1/2⌋ : ℤ) : ℚ) := by exact_mod_cast h50
    rw [le_div_iff₀ (by norm_num : (0:ℚ) < 100)]
    push_cast at hq ⊢
    linarith
  · have h96 : ⌊c * 100 + 1/2⌋ < 96 := Int.floor_lt.mpr (by push_cast; linarith)
    have h95 : ⌊c * 100 + 1/2⌋ ≤ 95 := by omega
    have hq : ((⌊c * 100 + 1/2⌋ : ℤ) : ℚ) ≤ ((95 : ℤ) : ℚ) := by exact_mod_cast h95
    rw [div_le_iff₀ (by norm_num : (0:ℚ) < 100)]
    push_cast at hq ⊢
    linarith

/-- Sorting a singleton. -/
theorem sortByConfDesc_single (p : DiseaseDetectionResult) : sortByConfDesc [p] = [p] := rfl

/-- Sorting a descending pair keeps it in place. -/
theorem sortByConfDesc_pair (p s : DiseaseDetectionResult) (h : s.confidence ≤ p.confidence) :
    sortByConfDesc [p, s] = [p, s] := by
  unfold sortByConfDesc
  simp only [List.insertionSort, List.orderedInsert]
  rw [if_pos (show confGE p s from h)]

/-- Success of `analyzeImage` is exactly passing validation. -/
theorem analyzeImage_success_iff (f : JsFile) (rnd : RandomDraws) (pt : ℕ) :
    (analyzeImage f rnd pt).success = true ↔ analyzeValidationError f = none := by
  cases h : analyzeValidationError f <;> simp [analyzeImage, h]

/-- On passing validation, the results are the sorted analysis results and
the error field is absent. -/
theorem analyzeImage_results_eq (f : JsFile) (rnd : RandomDraws) (pt : ℕ)
    (h : analyzeValidationError f = none) :
    (analyzeImage f rnd pt).results = sortByConfDesc (analysisResults f.name rnd) ∧
    (analyzeImage f rnd pt).error = none := by
  simp [analyzeImage, h]

/-- The analysis results are the primary alone, or the primary followed by a
secondary drawn from the table with a different id. -/
theorem analysisResults_shape (fn : String) (rnd : RandomDraws) :
    (analysisResults fn rnd =
      [mkPrimaryResult (detectDisease fn rnd.select)
        (primaryConfidence (detectDisease fn rnd.select).baseConfidence rnd.conf)]) ∨
    (∃ sec, sec ∈ diseasesList ∧ sec.diseaseId ≠ (detectDisease fn rnd.select).diseaseId ∧
      analysisResults fn rnd =
        [mkPrimaryResult (detectDisease fn rnd.select)
          (primaryConfidence (detectDisease fn rnd.select).baseConfidence rnd.conf),
         mkSecondaryResult sec
          (secondaryConfidence
            (primaryConfidence (detectDisease fn rnd.select).baseConfidence rnd.conf)
            rnd.secConf)]) := by
  by_cases hsec : rnd.secondary > 7/10
  · obtain ⟨sec, hfind, hmem, hne⟩ := find_secondary _ (detectDisease_mem fn rnd.select)
    right
    refine ⟨sec, hmem, hne, ?_⟩
    simp only [analysisResults, hsec, if_true, gt_iff_lt]
    rw [hfind]
    rfl
  · left
    simp [analysisResults, hsec]

/-- For a successful run with draws in `[0, 1)`, the returned (sorted)
results start with the primary detection, and everything after it has a
strictly smaller rounded confidence and a different disease id. -/
theorem analyzeImage_results_decomp (f : JsFile) (rnd : RandomDraws) (pt : ℕ)
    (hr : rnd.Valid) (hs : (analyzeImage f rnd pt).success = true) :
    ∃ rest, (analyzeImage f rnd pt).results =
        mkPrimaryResult (detectDisease f.name rnd.select)
          (primaryConfidence (detectDisease f.name rnd.select).baseConfidence rnd.conf) :: rest ∧
      ∀ s ∈ rest,
        s.confidence <
          (mkPrimaryResult (detectDisease f.name rnd.select)
            (primaryConfidence (detectDisease f.name rnd.select).baseConfidence rnd.conf)).confidence ∧
        s.diseaseId ≠
          (mkPrimaryResult (detectDisease f.name rnd.select)
            (primaryConfidence (detectDisease f.name rnd.select).baseConfidence rnd.conf)).diseaseId := by
  have hval := (analyzeImage_success_iff f rnd pt).mp hs
  obtain ⟨hres, _⟩ := analyzeImage_results_eq f rnd pt hval
  rcases analysisResults_shape f.name rnd with h | ⟨sec, _, hne, h⟩
  · refine ⟨[], ?_, by simp⟩
    rw [hres, h, sortByConfDesc_single]
  · have hcb := primaryConfidence_bounds
      (detectDisease f.name rnd.select).baseConfidence rnd.conf
    have hsc : secondaryConfidence
        (primaryConfidence (detectDisease f.name rnd.select).baseConfidence rnd.conf)
        rnd.secConf ≤
        primaryConfidence (detectDisease f.name rnd.select).baseConfidence rnd.conf - 1/5 :=
      secondaryConfidence_le _ _ hcb.1 hr.2.2.2.2.2.2.1
    have hlt : round2 (secondaryConfidence
        (primaryConfidence (detectDisease f.name rnd.select).baseConfidence rnd.conf)
        rnd.secConf) <
        round2 (primaryConfidence (detectDisease f.name rnd.select).baseConfidence rnd.conf) := by
      have hmono := round2_le_round2 _ _ hsc
      rw [round2_sub_fifth] at hmono
      linarith
    refine ⟨[mkSecondaryResult sec (secondaryConfidence
      (primaryConfidence (detectDisease f.name rnd.select).baseConfidence rnd.conf)
      rnd.secConf)], ?_, ?_⟩
    · rw [hres, h, sortByConfDesc_pair]
      exact le_of_lt hlt
    · intro s hsmem
      rw [List.mem_singleton] at hsmem
      subst hsmem
      exact ⟨hlt, hne⟩

/-- C2: for every sequence of browser online/offline connectivity events
within a session, once the `wasOffline` field of the network status becomes
true it remains true after every subsequent event, including reconnecting —
no event handler ever sets it back to false. -/
theorem c2_wasOffline_sticky (s : NetworkState) (evs : List ConnEvent)
    (h : s.wasOffline = true) :
    (evs.foldl networkStep s).wasOffline = true := by
  induction evs generalizing s with
  | nil => exact h
  | cons e rest ih =>
    rw [List.foldl_cons]
    apply ih
    cases e with
    | online nav => cases nav <;> simp [networkStep, h]
    | offline => rfl

/-- Witness for C2 at a concrete state and event sequence: having gone
offline (`wasOffline = true`), reconnecting and further events keep it true. -/
theorem c2_wasOffline_sticky_witness :
    (([ConnEvent.online true, ConnEvent.offline, ConnEvent.online true]).foldl networkStep
      ⟨false, true⟩).wasOffline = true :=
  c2_wasOffline_sticky ⟨false, true⟩ [ConnEvent.online true, ConnEvent.offline, ConnEvent.online true] rfl

/-- C4: on every successful analysis with draws in `[0, 1)`, the primary
(first) detection's rounded confidence lies in `[0.5, 0.95]`, and any
secondary detection has a strictly smaller rounded confidence and a
different disease id. -/
theorem c4_confidence_invariants (f : JsFile) (rnd : RandomDraws) (pt : ℕ)
    (hr : rnd.Valid) (hs : (analyzeImage f rnd pt).success = true) :
    ∃ p rest, (analyzeImage f rnd pt).results = p :: rest ∧
      1/2 ≤ p.confidence ∧ p.confidence ≤ 19/20 ∧
      ∀ s ∈ rest, s.confidence < p.confidence ∧ s.diseaseId ≠ p.diseaseId := by
  obtain ⟨rest, hres, hrest⟩ := analyzeImage_results_decomp f rnd pt hr hs
  have hb := primaryConfidence_bounds (detectDisease f.name rnd.select).baseConfidence rnd.conf
  have hrb := round2_bounds _ hb.1 hb.2
  exact ⟨_, rest, hres, hrb.1, hrb.2, hrest⟩

/-- Witness for C4: a concrete valid file and concrete draws triggering the
secondary detection. -/
theorem c4_confidence_invariants_witness :
    ∃ p rest, (analyzeImage blastFile drawsB 0).results = p :: rest ∧
      1/2 ≤ p.confidence ∧ p.confidence ≤ 19/20 ∧
      ∀ s ∈ rest, s.confidence < p.confidence ∧ s.diseaseId ≠ p.diseaseId :=
  c4_confidence_invariants blastFile drawsB 0
    (by norm_num [RandomDraws.Valid, drawsB]) (by rfl)

/-- C5: for every valid image whose lowercased filename contains "blast",
the primary (first) detection is Rice Blast (`d1`), regardless of the
draws. -/
theorem c5_blast_primary (f : JsFile) (rnd : RandomDraws) (pt : ℕ)
    (hr : rnd.Valid) (hb : strIncludes (toLowerString f.name) "blast" = true)
    (hs : (analyzeImage f rnd pt).success = true) :
    ∃ p rest, (analyzeImage f rnd pt).results = p :: rest ∧
      p.diseaseId = "d1" ∧ p.diseaseName = "Rice Blast" := by
  obtain ⟨rest, hres, _⟩ := analyzeImage_results_decomp f rnd pt hr hs
  have hdet : detectDisease f.name rnd.select = ⟨"d1", "Rice Blast", 17/20, Severity.High⟩ := by
    simp only [detectDisease, hb, if_true]
    rfl
  refine ⟨_, rest, hres, ?_, ?_⟩ <;> (rw [hdet]; rfl)

/-- Witness for C5: a concrete file named "blast.png" with concrete draws. -/
theorem c5_blast_primary_witness :
    ∃ p rest, (analyzeImage blastFile drawsA 0).results = p :: rest ∧
      p.diseaseId = "d1" ∧ p.diseaseName = "Rice Blast" :=
  c5_blast_primary blastFile drawsA 0
    (by norm_num [RandomDraws.Valid, drawsA]) (by decide) (by rfl)

/-- C6: for every invocation of `analyzeImage` and every outcome of the
draws, the returned results list is sorted in descending order of
confidence. -/
theorem c6_results_sorted (f : JsFile) (rnd : RandomDraws) (pt : ℕ) :
    List.Sorted confGE (analyzeImage f rnd pt).results := by
  cases h : analyzeValidationError f with
  | some msg => simp [analyzeImage, h]
  | none =>
    simp only [analyzeImage, h]
    exact List.sorted_insertionSort confGE _

/-- C7: for both values of `isOnline`, scanning, translating and viewing
diseases and vendors are always available, while reporting equals the
current `isOnline`. -/
theorem c7_capability_matrix :
    ∀ isOnline : Bool,
      (useOfflineCapabilities isOnline).canScanImages = true ∧
      (useOfflineCapabilities isOnline).canTranslate = true ∧
      (useOfflineCapabilities isOnline).canViewDiseases = true ∧
      (useOfflineCapabilities isOnline).canViewVendors = true ∧
      (useOfflineCapabilities isOnline).canReportDiseases = isOnline := by
  intro b
  cases b <;> exact ⟨rfl, rfl, rfl, rfl, rfl⟩

/-- C8: `analyzeImage` is total (a Lean function returning an
`ImageAnalysisResult` for every input); it reports `success = false`
exactly when validation fails (non-`image/` MIME prefix or size over 10MB),
in that case with an empty results list and one of the two descriptive
error messages, and on success the error field is absent. -/
theorem c8_total_error_handling (f : JsFile) (rnd : RandomDraws) (pt : ℕ) :
    ((analyzeImage f rnd pt).success = false ↔
      (strStartsWith f.type "image/" = false ∨ 10 * 1024 * 1024 < f.size)) ∧
    ((analyzeImage f rnd pt).success = false →
      (analyzeImage f rnd pt).results = [] ∧
      ((analyzeImage f rnd pt).error = some "Invalid file type. Please upload an image file." ∨
        (analyzeImage f rnd pt).error = some "Image file too large. Please use an image smaller than 10MB.")) ∧
    ((analyzeImage f rnd pt).success = true → (analyzeImage f rnd pt).error = none) := by
  by_cases h1 : strStartsWith f.type "image/" = true
  · by_cases h2 : 10 * 1024 * 1024 < f.size
    · simp [analyzeImage, analyzeValidationError, h1, h2]
    · simp [analyzeImage, analyzeValidationError, h1, h2]
  · simp [analyzeImage, analyzeValidationError, h1]

/-- C9: every successful result has `success = true`, no error field, one or
two detections, every detection's (id, name, severity) drawn from the fixed
five-entry table, and severity one of Low, Medium, High. -/
theorem c9_success_invariants (f : JsFile) (rnd : RandomDraws) (pt : ℕ)
    (hs : (analyzeImage f rnd pt).success = true) :
    (analyzeImage f rnd pt).error = none ∧
    ((analyzeImage f rnd pt).results.length = 1 ∨ (analyzeImage f rnd pt).results.length = 2) ∧
    ∀ e ∈ (analyzeImage f rnd pt).results,
      (e.diseaseId, e.diseaseName, e.severity) ∈ diseaseTable ∧
      (e.severity = Severity.Low ∨ e.severity = Severity.Medium ∨ e.severity = Severity.High) := by
  have hval := (analyzeImage_success_iff f rnd pt).mp hs
  obtain ⟨hres, herr⟩ := analyzeImage_results_eq f rnd pt hval
  refine ⟨herr, ?_, ?_⟩
  · rw [hres]
    rcases analysisResults_shape f.name rnd with h | ⟨sec, _, _, h⟩
    · left; rw [h]; unfold sortByConfDesc; rw [List.length_insertionSort]; rfl
    · right; rw [h]; unfold sortByConfDesc; rw [List.length_insertionSort]; rfl
  · intro e he
    rw [hres] at he
    have he2 : e ∈ analysisResults f.name rnd := by
      simpa [sortByConfDesc] using he
    rcases analysisResults_shape f.name rnd with h | ⟨sec, hmem, _, h⟩
    · rw [h, List.mem_singleton] at he2
      subst he2
      exact ⟨mem_diseaseTable_of_mem _ (detectDisease_mem f.name rnd.select), severity_cases _⟩
    · rw [h] at he2
      rcases List.mem_cons.mp he2 with he3 | he3
      · subst he3
        exact ⟨mem_diseaseTable_of_mem _ (detectDisease_mem f.name rnd.select), severity_cases _⟩
      · rw [List.mem_singleton] at he3
        subst he3
        exact ⟨mem_diseaseTable_of_mem _ hmem, severity_cases _⟩

/-- Witness for C9 at a concrete valid file and draws. -/
theorem c9_success_invariants_witness :
    (analyzeImage blastFile drawsB 0).error = none ∧
    ((analyzeImage blastFile drawsB 0).results.length = 1 ∨
      (analyzeImage blastFile drawsB 0).results.length = 2) ∧
    ∀ e ∈ (analyzeImage blastFile drawsB 0).results,
      (e.diseaseId, e.diseaseName, e.severity) ∈ diseaseTable ∧
      (e.severity = Severity.Low ∨ e.severity = Severity.Medium ∨ e.severity = Severity.High) :=
  c9_success_invariants blastFile drawsB 0 (by rfl)

/-- Whatever list a completed translation starts from, the updated
recent-translations list has at most five entries. -/
theorem translateText_length_le (i r : String) (l : List TranslationEntry) (st : LocalStorage)
    (u2 : List TranslationEntry) (s2 : LocalStorage)
    (h : translateText i r l st = some (u2, s2)) : u2.length ≤ 5 := by
  unfold translateText at h
  by_cases hi : jsTrim i = ""
  · rw [if_pos hi] at h
    exact absurd h (by simp)
  · rw [if_neg hi] at h
    have h2 := Option.some.inj h
    have h3 := congrArg Prod.fst h2
    dsimp at h3
    rw [← h3]
    simp only [List.length_cons, List.length_take]
    omega

/-- C10: every completed translation leaves at most five recent
translations, with the just-performed one first, both in state and in the
value serialized under the `recentTranslations` key; the bound is preserved
by every further translation. -/
theorem c10_recent_translations_bound (inputText result : String)
    (recent : List TranslationEntry) (storage : LocalStorage)
    (h : jsTrim inputText ≠ "") :
    ∃ upd st, translateText inputText result recent storage = some (upd, st) ∧
      upd.length ≤ 5 ∧ upd.head? = some ⟨inputText, result⟩ ∧
      st.recentTranslations = some upd ∧
      ∀ input2 result2 upd2 st2,
        translateText input2 result2 upd st = some (upd2, st2) → upd2.length ≤ 5 := by
  refine ⟨TranslationEntry.mk inputText result :: recent.take 4,
    ({ storage with recentTranslations := some (TranslationEntry.mk inputText result :: recent.take 4) } : LocalStorage),
    ?_, ?_, rfl, rfl, ?_⟩
  · simp [translateText, h]
  · simp only [List.length_cons, List.length_take]
    omega
  · intro input2 result2 upd2 st2 h2
    exact translateText_length_le input2 result2 _ _ upd2 st2 h2

/-- Witness for C10 at a concrete translation. -/
theorem c10_recent_translations_bound_witness :
    ∃ upd st, translateText "hello" "kumusta" [] emptyStorage = some (upd, st) ∧
      upd.length ≤ 5 ∧ upd.head? = some ⟨"hello", "kumusta"⟩ ∧
      st.recentTranslations = some upd ∧
      ∀ input2 result2 upd2 st2,
        translateText input2 result2 upd st = some (upd2, st2) → upd2.length ≤ 5 :=
  c10_recent_translations_bound "hello" "kumusta" [] emptyStorage (by decide)

/-- C3 counterexample: `leaf.gif` has MIME type `image/gif` — prefix
`image/` and size well under 10MB — yet `validateImage` (cited by the
claim) rejects it, so acceptance is not equivalent to the stated
prefix-and-size condition. -/
theorem c3_counterexample :
    strStartsWith gifFile.type "image/" = true ∧
    gifFile.size ≤ 10 * 1024 * 1024 ∧
    (validateImage gifFile).valid = false ∧
    (validateImage gifFile).error ≠ none := by
  exact ⟨by decide, by decide, by decide, by decide⟩

/-- C3 (amended): the inline validation of `analyzeImage` fails exactly on a
non-`image/` MIME prefix or size over 10MB; the separate `validateImage`
helper instead fails exactly when the MIME type is outside the fixed
whitelist (jpeg, jpg, png, webp) or the size exceeds 10MB; both attach a
descriptive message on failure. -/
theorem c3_amended_validation (f : JsFile) :
    ((analyzeValidationError f).isSome = true ↔
      (strStartsWith f.type "image/" = false ∨ 10 * 1024 * 1024 < f.size)) ∧
    ((validateImage f).valid = false ↔
      (f.type ∉ getSupportedFormats ∨ 10 * 1024 * 1024 < f.size)) ∧
    ((validateImage f).valid = false → (validateImage f).error ≠ none) := by
  refine ⟨?_, ?_, ?_⟩
  · by_cases h1 : strStartsWith f.type "image/" = true <;>
      by_cases h2 : 10 * 1024 * 1024 < f.size <;>
        simp [analyzeValidationError, h1, h2]
  · by_cases hm : f.type ∈ getSupportedFormats <;>
      by_cases h2 : 10 * 1024 * 1024 < f.size <;>
        simp [validateImage, hm, h2]
  · by_cases hm : f.type ∈ getSupportedFormats <;>
      by_cases h2 : 10 * 1024 * 1024 < f.size <;>
        simp [validateImage, hm, h2]

/-- C1 counterexample: adding a disease while offline with an empty initial
collection serializes the collection as it stood BEFORE the action (the
empty list), not the post-action collection, under `localDiseases`; and an
offline report submission is rejected outright, writing nothing. -/
theorem c1_counterexample :
    updateHandleSubmit [] sampleForm none 0 false emptyStorage =
      some ⟨[sampleDisease], ⟨some [], none⟩, []⟩ ∧
    some ([] : List Disease) ≠ some [sampleDisease] ∧
    (reportHandleSubmit sampleReport false emptyStorage).storage = emptyStorage ∧
    (reportHandleSubmit sampleReport false emptyStorage).submitted = false := by
  exact ⟨by decide, by decide, by decide, by decide⟩

/-- C1 (amended): while offline, add/edit serialize under `localDiseases`
the collection as it stood before the action (a stale-closure write) and
delete serializes the post-delete collection; while online these actions
leave storage untouched and are only logged; report submission never
touches storage — offline it is rejected with an alert, online it is only
logged as submitted. -/
theorem c1_amended_local_first (ds : List Disease) (fd : DiseaseFormData) (eid : Option String)
    (now : ℕ) (st : LocalStorage) (delId : String) (rf : ReportFormData) (r : UpdateActionResult) :
    (updateHandleSubmit ds fd eid now false st = some r →
      r.storage.localDiseases = some ds ∧ r.log = []) ∧
    (updateHandleSubmit ds fd eid now true st = some r →
      r.storage = st ∧ r.log ≠ []) ∧
    (handleDelete ds delId true false st).storage.localDiseases =
      some (handleDelete ds delId true false st).diseases ∧
    (handleDelete ds delId true true st).storage = st ∧
    (reportHandleSubmit rf false st).storage = st ∧
    (reportHandleSubmit rf false st).submitted = false ∧
    (reportHandleSubmit rf true st).storage = st := by
  refine ⟨?_, ?_, ?_, ?_, ?_, ?_, ?_⟩
  · intro h
    simp only [updateHandleSubmit] at h
    split_ifs at h
    all_goals try contradiction
    all_goals obtain rfl := Option.some.inj h
    all_goals exact ⟨rfl, rfl⟩
  · intro h
    simp only [updateHandleSubmit] at h
    split_ifs at h
    all_goals obtain rfl := Option.some.inj h
    all_goals exact ⟨rfl, by simp⟩
  · rfl
  · rfl
  · cases hv : validateForm rf <;> simp [reportHandleSubmit, hv]
  · cases hv : validateForm rf <;> simp [reportHandleSubmit, hv]
  · cases hv : validateForm rf <;> simp [reportHandleSubmit, hv]
